import Mathlib

/-!
Verification of the interpolation-video driver `predict.py` from
`chenxwh/stable-diffusion-videos`.

The file shallowly embeds the original logic of the script:

* prompt/seed preparation (`predict.py` lines 85-106),
* the nested frame-writing driver loop (lines 123-175),
* the `np.linspace` sampling of the interpolation parameter (line 149),
* the encoder wrapper `run_cmd` (lines 193-198) together with the module
  namespace produced by the imports (lines 1-12),
* the `slerp` numeric routine (lines 201-225), including its
  numpy-array / torch-tensor representation handling.

Machine floats are embedded as real numbers (the exact algorithm of the
source, with exact arithmetic); Python strings are lists of characters;
the diffusion pipeline itself is an opaque collaborator, so a frame is
represented by the index of the file it is written to.
-/

namespace SDV

/-- Python strings, modelled as lists of characters. -/
abbrev PyStr := List Char

/-- `s.strip()`: remove whitespace from both ends of the string. -/
def pyStrip (s : PyStr) : PyStr :=
  ((s.dropWhile Char.isWhitespace).reverse.dropWhile Char.isWhitespace).reverse

/-- `[p.strip() for p in s.split("|")]`, the parsing applied to the prompt
string (line 85) and to the seed string (line 90): split on the delimiter
keeping empty pieces, then strip each piece. -/
def pySplitStrip (s : PyStr) : List PyStr :=
  (s.splitOn '|').map pyStrip

/-- `s.isdigit()`: true iff the string is nonempty and all its characters are
digits. -/
def pyIsdigit (s : PyStr) : Bool :=
  !s.isEmpty && s.all Char.isDigit

/-- `int(s)` on a digit string: decimal value. -/
def pyInt (s : PyStr) : ℕ :=
  s.foldl (fun n c => 10 * n + (c.toNat - 48)) 0

/-- The Python exceptions the embedded fragments can raise. -/
inductive PyError where
  | assertionError
  | nameError
  | systemExit
deriving DecidableEq

/-- Seed preparation (lines 86-102).  `gen i` abstracts the `i`-th draw of
`int.from_bytes(os.urandom(2), "big")`.  With no seed string, one random seed
per prompt is drawn.  Otherwise the seed string is split and stripped, every
token is asserted to be a digit string (line 92), the tokens are converted
with `int`, then the list is truncated to the prompt count if it is longer
(line 96) and padded with random draws if it is not (lines 100-102). -/
def alignSeeds (prompts : List PyStr) (seedsStr : Option PyStr) (gen : ℕ → ℕ) :
    Except PyError (List ℕ) :=
  match seedsStr with
  | none => Except.ok ((List.range prompts.length).map gen)
  | some str =>
      let toks := pySplitStrip str
      if toks.all pyIsdigit then
        let seeds := toks.map pyInt
        if seeds.length > prompts.length then
          Except.ok (seeds.take prompts.length)
        else
          Except.ok (seeds ++ (List.range (prompts.length - seeds.length)).map gen)
      else
        Except.error PyError.assertionError

/-- `np.linspace(start, stop, num)` with the default `endpoint=True`:
`num` evenly spaced samples; for `num ≤ 1` the (at most one) sample is
`start`, otherwise sample `i` is `start + (stop - start) * i / (num - 1)`. -/
noncomputable def linspace (start stop : ℝ) (num : ℕ) : List ℝ :=
  if num ≤ 1 then List.replicate num start
  else (List.range num).map (fun i : ℕ => start + (stop - start) * (i : ℝ) / ((num : ℝ) - 1))

/-- The flattened Euclidean norm `np.linalg.norm(v)` (line 210). -/
noncomputable def normv (v : List ℝ) : ℝ :=
  Real.sqrt ((v.map (fun x => x * x)).sum)

/-- `dot = np.sum(v0 * v1 / (np.linalg.norm(v0) * np.linalg.norm(v1)))`
(line 210): elementwise product divided by the product of the norms, then
summed. -/
noncomputable def slerpDot (v0 v1 : List ℝ) : ℝ :=
  (List.zipWith (fun a b => a * b / (normv v0 * normv v1)) v0 v1).sum

/-- The linear interpolation `(1 - t) * v0 + t * v1` (line 212). -/
noncomputable def lerpList (t : ℝ) (v0 v1 : List ℝ) : List ℝ :=
  List.zipWith (fun a b => (1 - t) * a + t * b) v0 v1

/-- The numeric core of `slerp` (lines 210-220), on flattened vectors.
`DOT_THRESHOLD` is always the default `0.9995` in this repository. -/
noncomputable def slerp (t : ℝ) (v0 v1 : List ℝ) : List ℝ :=
  if |slerpDot v0 v1| > 0.9995 then
    List.zipWith (fun a b => (1 - t) * a + t * b) v0 v1
  else
    let theta_0 := Real.arccos (slerpDot v0 v1)
    let sin_theta_0 := Real.sin theta_0
    let theta_t := theta_0 * t
    let sin_theta_t := Real.sin theta_t
    let s0 := Real.sin (theta_0 - theta_t) / sin_theta_0
    let s1 := sin_theta_t / sin_theta_0
    List.zipWith (fun a b => s0 * a + s1 * b) v0 v1

/-- The representation of a `slerp` argument: a numpy array, or a torch
tensor living on some device (device ids abstract `torch.device`). -/
inductive Rep where
  | ndarray : List ℝ → Rep
  | tensor : ℕ → List ℝ → Rep

/-- The flattened numeric contents of either representation. -/
def Rep.data : Rep → List ℝ
  | Rep.ndarray v => v
  | Rep.tensor _ v => v

/-- The whole of `slerp` (lines 201-225) including its representation
handling.  When `v0` is not an ndarray (lines 204-208) the local
`inputs_are_torch` is set and both inputs are moved to cpu arrays, and the
result is converted back onto the original device (lines 222-223).  When `v0`
is an ndarray, `inputs_are_torch` is never assigned: the numeric result `v2`
is computed, and then the final `if inputs_are_torch` (line 222) reads an
unbound local name and raises. -/
noncomputable def slerpRep (t : ℝ) (v0 v1 : Rep) : Except PyError Rep :=
  match v0 with
  | Rep.tensor d x => Except.ok (Rep.tensor d (slerp t x v1.data))
  | Rep.ndarray x =>
      let _v2 := slerp t x v1.data
      Except.error PyError.nameError

/-- The state threaded through the driver loop (lines 135-175): the indices
of the frame files written so far, the frame indices at which a progress
count was printed, and the running global `frame_index`.  The image contents
come from the opaque pipeline and are not modelled. -/
structure DriverState where
  frames : List ℕ
  printed : List ℕ
  frameIndex : ℕ

/-- One inner iteration (lines 149-172) as a function of the enumeration
index `i`: decide `do_print_progress = (i == 0) or ((frame_index + 1) % 20 == 0)`
(line 150), generate and save the image as frame `frame_index` (line 171),
then increment `frame_index` (line 172). -/
def innerBodyIdx (st : DriverState) (i : ℕ) : DriverState :=
  let doPrint := (i == 0) || ((st.frameIndex + 1) % 20 == 0)
  ⟨st.frames ++ [st.frameIndex],
   if doPrint then st.printed ++ [st.frameIndex] else st.printed,
   st.frameIndex + 1⟩

/-- The inner loop body on an `enumerate` pair `(i, t)` (line 149); the value
`t` only feeds the interpolation passed to the opaque generation call, so the
frame bookkeeping depends on `i` alone. -/
def innerBody (st : DriverState) (p : ℕ × ℝ) : DriverState :=
  innerBodyIdx st p.1

/-- One prompt-pair transition: `for i, t in enumerate(np.linspace(0, 1,
num_steps))` (line 149). -/
noncomputable def runPair (K : ℕ) (st : DriverState) : DriverState :=
  ((linspace 0 1 K).enum).foldl innerBody st

/-- The outer driver loop (lines 123-175): after the first prompt and seed
are split off (lines 123 and 126), `for prompt, seed in zip(prompts, seeds)`
runs one pair transition per remaining (prompt, seed); `frame_index` starts
at `0` (line 135) and is never reset. -/
noncomputable def runDriver (prompts : List PyStr) (seeds : List ℕ) (K : ℕ) :
    DriverState :=
  (prompts.tail.zip seeds.tail).foldl (fun st _ => runPair K st) ⟨[], [], 0⟩

/-- The outcome of the blocking `call(command, shell=True)` (line 195): the
subprocess ran to completion with some exit status, or a `KeyboardInterrupt`
was delivered while waiting. -/
inductive CallOutcome where
  | completed : ℤ → CallOutcome
  | interrupted : CallOutcome
deriving DecidableEq

/-- How a `run_cmd` invocation ends: it returns normally, the process exits
cleanly with a status, or an exception escapes it. -/
inductive RunCmdResult where
  | finished : RunCmdResult
  | cleanExit : ℕ → RunCmdResult
  | uncaught : PyError → RunCmdResult
deriving DecidableEq

/-- The names bound in the module's global namespace when `run_cmd` runs:
the imports of lines 1-12 and the module-level definitions.  `sys` is not
among them. -/
def moduleNames : List String :=
  ["os", "call", "Optional", "List", "shutil", "np", "torch", "autocast",
   "DDIMScheduler", "LMSDiscreteScheduler", "PNDMScheduler", "Image",
   "BasePredictor", "Input", "Path", "StableDiffusionPipeline",
   "MODEL_CACHE", "Predictor", "run_cmd", "slerp"]

set_option linter.unusedVariables false in
/-- `run_cmd` (lines 193-198): the exit status of a completed `call` is
ignored and the function returns normally; on `KeyboardInterrupt` the handler
prints and then evaluates `sys.exit(1)`, which first resolves the global name
`sys` — a lookup that raises `NameError` when the name is unbound. -/
def runCmd (command : String) (outcome : CallOutcome) : RunCmdResult :=
  match outcome with
  | CallOutcome.completed _ => RunCmdResult.finished
  | CallOutcome.interrupted =>
      if moduleNames.contains "sys" then RunCmdResult.cleanExit 1
      else RunCmdResult.uncaught PyError.nameError

/-- The encoder command string built on lines 180-187, with
`image_path = os.path.join(outdir, "frame%06d.jpg")` and
`video_path = "/tmp/out.mp4"`. -/
def ffmpegCmd (fps : ℕ) : String :=
  "ffmpeg -y -r " ++ toString fps ++ " -i " ++ "cog_out/frame%06d.jpg" ++
    " -vcodec libx264 -crf 25  -pix_fmt yuv420p " ++ "/tmp/out.mp4"

/-- What one `predict` run produces (besides the images themselves). -/
structure PredictResult where
  frames : List ℕ
  printed : List ℕ
  cmd : String
  output : String

/-- The `predict` body (lines 85-190), with the opaque pipeline work elided:
parse the prompts, prepare the seeds (an assertion failure aborts the run),
run the driver loop, run the encoder command through `run_cmd`, and return
the video path.  `enc` is the outcome of the encoder subprocess. -/
noncomputable def predict (promptsStr : PyStr) (seedsStr : Option PyStr)
    (gen : ℕ → ℕ) (num_steps fps : ℕ) (enc : CallOutcome) :
    Except PyError PredictResult :=
  let prompts := pySplitStrip promptsStr
  match alignSeeds prompts seedsStr gen with
  | Except.error e => Except.error e
  | Except.ok seeds =>
      let st := runDriver prompts seeds num_steps
      match runCmd (ffmpegCmd fps) enc with
      | RunCmdResult.finished =>
          Except.ok ⟨st.frames, st.printed, ffmpegCmd fps, "/tmp/out.mp4"⟩
      | RunCmdResult.cleanExit _ => Except.error PyError.systemExit
      | RunCmdResult.uncaught e => Except.error e

/-! ### Helper lemmas: the driver loop -/

lemma linspace_length (start stop : ℝ) (num : ℕ) :
    (linspace start stop num).length = num := by
  unfold linspace
  split
  · simp
  · rw [List.length_map, List.length_range]

lemma runPair_eq (K : ℕ) (st : DriverState) :
    runPair K st = (List.range K).foldl innerBodyIdx st := by
  unfold runPair
  have h1 : (linspace 0 1 K).enum.foldl innerBody st =
      ((linspace 0 1 K).enum.map Prod.fst).foldl innerBodyIdx st := by
    rw [List.foldl_map]
    rfl
  rw [h1, List.enum_map_fst, linspace_length]

lemma range_foldl_inner (K : ℕ) : ∀ (idx : ℕ) (fs ps : List ℕ),
    (List.range K).foldl innerBodyIdx ⟨fs, ps, idx⟩ =
      ⟨fs ++ List.range' idx K,
       ps ++ (List.range' idx K).filter (fun fi => fi == idx || (fi + 1) % 20 == 0),
       idx + K⟩ := by
  induction K with
  | zero => intro idx fs ps; simp
  | succ K ih =>
      intro idx fs ps
      rw [List.range_succ, List.foldl_append, ih]
      have hr : List.range' idx (K + 1) = List.range' idx K ++ [idx + K] := by
        have h := List.range'_append idx K 1 1
        simp only [List.range'_one, one_mul] at h
        rw [Nat.add_comm 1 K] at h
        exact h.symm
      have hb : (idx + K == idx) = (K == 0) := by
        by_cases h : K = 0
        · subst h; simp
        · have h1 : idx + K ≠ idx := by omega
          rw [beq_eq_false_iff_ne.mpr h1, beq_eq_false_iff_ne.mpr h]
      rw [hr, List.filter_append, List.filter_singleton]
      simp only [List.foldl_cons, List.foldl_nil, innerBodyIdx, hb,
        Bool.cond_eq_ite, List.append_assoc, Nat.add_assoc]
      by_cases hc : (K == 0 || (idx + (K + 1)) % 20 == 0) = true <;> simp [hc]

/-- The predicate satisfied by exactly the frame indices at which the driver
prints a progress count: the frame starts a prompt pair (`fi % K = 0`), or its
one-based count is a multiple of 20. -/
def printPred (K fi : ℕ) : Bool :=
  fi % K == 0 || (fi + 1) % 20 == 0

lemma foldl_ignore {α β : Type _} (g : β → β) (l : List α) (s : β) :
    l.foldl (fun st _ => g st) s = g^[l.length] s := by
  induction l generalizing s with
  | nil => rfl
  | cons a l ih =>
      rw [List.foldl_cons, List.length_cons, Function.iterate_succ_apply]
      exact ih (g s)

lemma iterate_pairs (K : ℕ) : ∀ m : ℕ,
    (fun st => (List.range K).foldl innerBodyIdx st)^[m] ⟨[], [], 0⟩ =
      ⟨List.range (m * K), (List.range (m * K)).filter (printPred K), m * K⟩ := by
  intro m
  induction m with
  | zero => simp
  | succ m ih =>
      rw [Function.iterate_succ_apply', ih]
      show (List.range K).foldl innerBodyIdx _ = _
      rw [range_foldl_inner]
      have hsplit : List.range ((m + 1) * K) =
          List.range (m * K) ++ List.range' (m * K) K := by
        rw [Nat.succ_mul, List.range_eq_range', List.range_eq_range']
        have h := List.range'_append 0 (m * K) K 1
        simp only [one_mul, Nat.zero_add] at h
        rw [Nat.add_comm (m * K) K]
        exact h.symm
      have hcongr :
          (List.range' (m * K) K).filter (fun fi => fi == m * K || (fi + 1) % 20 == 0) =
            (List.range' (m * K) K).filter (printPred K) := by
        apply List.filter_congr
        intro fi hfi
        obtain ⟨i, hi, rfl⟩ := List.mem_range'.mp hfi
        simp only [one_mul]
        by_cases h : i = 0
        · subst h
          simp [printPred, Nat.mul_mod_left]
        · have h1 : m * K + i ≠ m * K := by omega
          have h2 : (m * K + i) % K ≠ 0 := by
            rw [Nat.mul_comm m K, Nat.mul_add_mod, Nat.mod_eq_of_lt hi]
            exact h
          simp only [printPred]
          rw [beq_eq_false_iff_ne.mpr h1, beq_eq_false_iff_ne.mpr h2]
      rw [hsplit, List.filter_append, hcongr, Nat.succ_mul]

lemma runDriver_eq (prompts : List PyStr) (seeds : List ℕ) (K : ℕ) :
    runDriver prompts seeds K =
      ⟨List.range ((prompts.tail.zip seeds.tail).length * K),
       (List.range ((prompts.tail.zip seeds.tail).length * K)).filter (printPred K),
       (prompts.tail.zip seeds.tail).length * K⟩ := by
  unfold runDriver
  simp only [runPair_eq]
  rw [foldl_ignore, iterate_pairs]

lemma zip_tail_length (prompts : List PyStr) (seeds : List ℕ)
    (h : seeds.length = prompts.length) :
    (prompts.tail.zip seeds.tail).length = prompts.length - 1 := by
  simp [List.length_zip, List.length_tail, h]

lemma runDriver_frames (prompts : List PyStr) (seeds : List ℕ) (K : ℕ)
    (h : seeds.length = prompts.length) :
    (runDriver prompts seeds K).frames = List.range ((prompts.length - 1) * K) := by
  rw [runDriver_eq, zip_tail_length prompts seeds h]

lemma runDriver_printed (prompts : List PyStr) (seeds : List ℕ) (K : ℕ)
    (h : seeds.length = prompts.length) :
    (runDriver prompts seeds K).printed =
      (List.range ((prompts.length - 1) * K)).filter (printPred K) := by
  rw [runDriver_eq, zip_tail_length prompts seeds h]

/-! ### Helper lemmas: the slerp numerics -/

lemma zipWith_eq_left (f : ℝ → ℝ → ℝ) (hf : ∀ a b, f a b = a) :
    ∀ (v0 v1 : List ℝ), v0.length = v1.length → List.zipWith f v0 v1 = v0 := by
  intro v0
  induction v0 with
  | nil => intro v1 _; rfl
  | cons x v ih =>
      intro v1 h
      cases v1 with
      | nil => simp at h
      | cons y w =>
          rw [List.zipWith_cons_cons, hf, ih w (by simpa using h)]

lemma zipWith_eq_right (f : ℝ → ℝ → ℝ) (hf : ∀ a b, f a b = b) :
    ∀ (v0 v1 : List ℝ), v0.length = v1.length → List.zipWith f v0 v1 = v1 := by
  intro v0
  induction v0 with
  | nil =>
      intro v1 h
      cases v1 with
      | nil => rfl
      | cons y w => simp at h
  | cons x v ih =>
      intro v1 h
      cases v1 with
      | nil => simp at h
      | cons y w =>
          rw [List.zipWith_cons_cons, hf, ih w (by simpa using h)]

lemma zipWith_self (f : ℝ → ℝ → ℝ) (l : List ℝ) :
    List.zipWith f l l = l.map (fun a => f a a) := by
  induction l with
  | nil => rfl
  | cons x l ih => rw [List.zipWith_cons_cons, List.map_cons, ih]

lemma zipWith_self_zero (v : List ℝ) (hz : ∀ x ∈ v, x = 0) (f : ℝ → ℝ → ℝ)
    (hf : f 0 0 = 0) : List.zipWith f v v = v := by
  induction v with
  | nil => rfl
  | cons x v ih =>
      have hx : x = 0 := hz x (by simp)
      subst hx
      rw [List.zipWith_cons_cons, hf, ih (fun y hy => hz y (by simp [hy]))]

lemma sum_map_div (l : List ℝ) (c : ℝ) :
    (l.map (fun x => x / c)).sum = l.sum / c := by
  induction l with
  | nil => simp
  | cons x l ih => simp [ih, add_div]

lemma sq_sum_nonneg (v : List ℝ) : 0 ≤ (v.map (fun x => x * x)).sum := by
  induction v with
  | nil => simp
  | cons x v ih =>
      rw [List.map_cons, List.sum_cons]
      have hx := mul_self_nonneg x
      linarith

lemma sq_sum_zero (v : List ℝ) (h : (v.map (fun x => x * x)).sum = 0) :
    ∀ x ∈ v, x = 0 := by
  induction v with
  | nil => simp
  | cons y v ih =>
      rw [List.map_cons, List.sum_cons] at h
      have h1 := sq_sum_nonneg v
      have h2 := mul_self_nonneg y
      have hy : y * y = 0 := by linarith
      have hsum : (v.map (fun x => x * x)).sum = 0 := by linarith
      intro x hx
      rcases List.mem_cons.mp hx with rfl | hx'
      · exact mul_self_eq_zero.mp hy
      · exact ih hsum x hx'

lemma sin_arccos_ne_zero {x : ℝ} (hx : |x| ≤ 0.9995) :
    Real.sin (Real.arccos x) ≠ 0 := by
  rw [Real.sin_arccos]
  have h1 : |x| < 1 := lt_of_le_of_lt hx (by norm_num)
  have h2 : x ^ 2 < 1 := (sq_lt_one_iff_abs_lt_one x).mpr h1
  have h3 : 0 < 1 - x ^ 2 := by linarith
  exact ne_of_gt (Real.sqrt_pos.mpr h3)

lemma slerpDot_self (v0 : List ℝ)
    (hS : (v0.map (fun x => x * x)).sum ≠ 0) : slerpDot v0 v0 = 1 := by
  have hS0 : 0 ≤ (v0.map (fun x => x * x)).sum := sq_sum_nonneg v0
  unfold slerpDot
  rw [zipWith_self]
  have hn : normv v0 * normv v0 = (v0.map (fun x => x * x)).sum := by
    unfold normv
    exact Real.mul_self_sqrt hS0
  rw [hn]
  have hcomp :
      (fun a : ℝ => a * a / (v0.map (fun x => x * x)).sum) =
        (fun x : ℝ => x / (v0.map (fun x => x * x)).sum) ∘ (fun a : ℝ => a * a) := rfl
  rw [hcomp, ← List.map_map, sum_map_div, div_self hS]

/-! ### Claim theorems -/

/-- C3: whenever the cosine similarity `dot` of `v0` and `v1` satisfies
`|dot| > 0.9995`, `slerp t v0 v1` is the linear interpolation
`(1 - t) * v0 + t * v1`; in particular for `v1 = v0` the result equals the
linear interpolation for every `t`. -/
theorem slerp_near_parallel_fallback (t : ℝ) (v0 v1 : List ℝ) :
    (|slerpDot v0 v1| > 0.9995 → slerp t v0 v1 = lerpList t v0 v1) ∧
    (v1 = v0 → slerp t v0 v1 = lerpList t v0 v1) := by
  constructor
  · intro h
    unfold slerp
    rw [if_pos h]
    rfl
  · intro hv
    rw [hv]
    by_cases hS : (v0.map (fun x => x * x)).sum = 0
    · have hz := sq_sum_zero v0 hS
      have h1 : slerp t v0 v0 = v0 := by
        unfold slerp
        split
        · exact zipWith_self_zero v0 hz _ (by ring)
        · exact zipWith_self_zero v0 hz _ (by ring)
      have h2 : lerpList t v0 v0 = v0 :=
        zipWith_self_zero v0 hz _ (by ring)
      rw [h1, h2]
    · have hdot := slerpDot_self v0 hS
      unfold slerp
      rw [hdot, if_pos (by norm_num : |(1 : ℝ)| > 0.9995)]
      rfl

/-- Witness for C3: at `t = 1/2`, `v0 = v1 = [1]` the similarity is `1`, above
the threshold, and the fallback gives the linear interpolation; the
`v1 = v0` part is also instantiated at `t = 1/3`, `v0 = [2]`. -/
theorem slerp_near_parallel_fallback_witness :
    (|slerpDot [(1 : ℝ)] [(1 : ℝ)]| > 0.9995 ∧
      slerp (1 / 2) [(1 : ℝ)] [(1 : ℝ)] = lerpList (1 / 2) [(1 : ℝ)] [(1 : ℝ)]) ∧
    slerp (1 / 3) [(2 : ℝ)] [(2 : ℝ)] = lerpList (1 / 3) [(2 : ℝ)] [(2 : ℝ)] := by
  have hdot : slerpDot [(1 : ℝ)] [(1 : ℝ)] = 1 := by
    unfold slerpDot normv
    simp [Real.sqrt_one]
  refine ⟨⟨by rw [hdot]; norm_num, ?_⟩, ?_⟩
  · exact (slerp_near_parallel_fallback (1 / 2) [(1 : ℝ)] [(1 : ℝ)]).1
      (by rw [hdot]; norm_num)
  · exact (slerp_near_parallel_fallback (1 / 3) [(2 : ℝ)] [(2 : ℝ)]).2 rfl

/-- C6: for vectors of identical shape, `slerp 0 v0 v1 = v0` and
`slerp 1 v0 v1 = v1` (exactly, in the exact-real embedding of the float
algorithm). -/
theorem slerp_endpoint_identity (v0 v1 : List ℝ) (h : v0.length = v1.length) :
    slerp 0 v0 v1 = v0 ∧ slerp 1 v0 v1 = v1 := by
  constructor
  · unfold slerp
    by_cases hd : |slerpDot v0 v1| > 0.9995
    · rw [if_pos hd]
      exact zipWith_eq_left _ (fun a b => by ring) v0 v1 h
    · rw [if_neg hd]
      have hsin := sin_arccos_ne_zero (not_lt.mp hd)
      refine zipWith_eq_left _ (fun a b => ?_) v0 v1 h
      dsimp only
      rw [mul_zero, sub_zero, Real.sin_zero, zero_div, zero_mul, add_zero,
        div_self hsin, one_mul]
  · unfold slerp
    by_cases hd : |slerpDot v0 v1| > 0.9995
    · rw [if_pos hd]
      exact zipWith_eq_right _ (fun a b => by ring) v0 v1 h
    · rw [if_neg hd]
      have hsin := sin_arccos_ne_zero (not_lt.mp hd)
      refine zipWith_eq_right _ (fun a b => ?_) v0 v1 h
      dsimp only
      rw [mul_one, sub_self, Real.sin_zero, zero_div, zero_mul, zero_add,
        div_self hsin, one_mul]

/-- Witness for C6 at the orthogonal pair `v0 = [1, 0]`, `v1 = [0, 1]` (which
takes the spherical branch). -/
theorem slerp_endpoint_identity_witness :
    slerp 0 [(1 : ℝ), 0] [(0 : ℝ), 1] = [(1 : ℝ), 0] ∧
      slerp 1 [(1 : ℝ), 0] [(0 : ℝ), 1] = [(0 : ℝ), 1] :=
  slerp_endpoint_identity [(1 : ℝ), 0] [(0 : ℝ), 1] rfl

/-- C4 (code bug): the claim says an ndarray input yields an ndarray result
without error, but since `inputs_are_torch` is only assigned in the
tensor branch, the ndarray path reads an unbound local at line 222 and raises
`NameError`; the tensor path does return a tensor on the caller's original
device, as claimed. -/
theorem slerp_representation_behavior :
    slerpRep (1 / 2) (Rep.ndarray [1, 0]) (Rep.ndarray [0, 1]) =
        Except.error PyError.nameError ∧
    (∀ (t : ℝ) (d : ℕ) (x : List ℝ) (w : Rep),
        slerpRep t (Rep.tensor d x) w = Except.ok (Rep.tensor d (slerp t x w.data))) :=
  ⟨rfl, fun _ _ _ _ => rfl⟩

/-- C9 (code bug): on `KeyboardInterrupt` during the encoder call, the handler
evaluates `sys.exit(1)`, but `sys` is never imported, so a `NameError`
escapes instead of the claimed clean exit with status 1; every completed
encoder subprocess, whatever its exit status (success `0`, failure `1`,
missing binary `127`), is ignored and the run continues. -/
theorem runCmd_interrupt_behavior :
    runCmd (ffmpegCmd 15) CallOutcome.interrupted =
        RunCmdResult.uncaught PyError.nameError ∧
    runCmd (ffmpegCmd 15) (CallOutcome.completed 0) = RunCmdResult.finished ∧
    runCmd (ffmpegCmd 15) (CallOutcome.completed 1) = RunCmdResult.finished ∧
    runCmd (ffmpegCmd 15) (CallOutcome.completed 127) = RunCmdResult.finished := by
  refine ⟨?_, rfl, rfl, rfl⟩
  rfl

lemma alignSeeds_some (prompts : List PyStr) (str : PyStr) (gen : ℕ → ℕ)
    (hv : (pySplitStrip str).all pyIsdigit = true) :
    alignSeeds prompts (some str) gen =
      (if ((pySplitStrip str).map pyInt).length > prompts.length then
        Except.ok (((pySplitStrip str).map pyInt).take prompts.length)
      else
        Except.ok ((pySplitStrip str).map pyInt ++
          (List.range (prompts.length - ((pySplitStrip str).map pyInt).length)).map gen)) := by
  unfold alignSeeds
  dsimp only
  rw [if_pos hv]

/-- C1: with a valid seed string of S tokens and P prompts, seed alignment
succeeds and yields exactly one seed per prompt: for S ≥ P the first P seeds
in their given order, for S < P the S given seeds in order followed by P − S
generated draws. -/
theorem seed_alignment (promptsStr str : PyStr) (gen : ℕ → ℕ)
    (hv : (pySplitStrip str).all pyIsdigit = true) :
    ∃ out : List ℕ,
      alignSeeds (pySplitStrip promptsStr) (some str) gen = Except.ok out ∧
      out.length = (pySplitStrip promptsStr).length ∧
      ((pySplitStrip promptsStr).length ≤ (pySplitStrip str).length →
        out = ((pySplitStrip str).map pyInt).take (pySplitStrip promptsStr).length) ∧
      ((pySplitStrip str).length < (pySplitStrip promptsStr).length →
        out = (pySplitStrip str).map pyInt ++
          (List.range
            ((pySplitStrip promptsStr).length - (pySplitStrip str).length)).map gen) := by
  rw [alignSeeds_some (pySplitStrip promptsStr) str gen hv]
  by_cases hc :
      ((pySplitStrip str).map pyInt).length > (pySplitStrip promptsStr).length
  · rw [if_pos hc]
    rw [List.length_map] at hc
    refine ⟨_, rfl, ?_, fun _ => rfl, fun hlt => absurd hlt (by omega)⟩
    rw [List.length_take, List.length_map]
    omega
  · rw [if_neg hc]
    rw [List.length_map] at hc
    push_neg at hc
    refine ⟨_, rfl, ?_, ?_, ?_⟩
    · rw [List.length_append, List.length_map, List.length_map, List.length_range]
      omega
    · intro hle
      have h0 : (pySplitStrip promptsStr).length -
          ((pySplitStrip str).map pyInt).length = 0 := by
        rw [List.length_map]; omega
      rw [h0, List.range_zero, List.map_nil, List.append_nil,
        List.take_of_length_le (by rw [List.length_map]; omega)]
    · intro _
      rw [List.length_map]

/-- Witness for C1: prompts "a|b" (P = 2) against the single seed token
"42" (S = 1): the seed 42 is kept and one generated draw is appended. -/
theorem seed_alignment_witness :
    (pySplitStrip ['4', '2']).all pyIsdigit = true ∧
    ∃ out : List ℕ,
      alignSeeds (pySplitStrip ['a', '|', 'b']) (some ['4', '2']) (fun _ => 5) =
          Except.ok out ∧
      out.length = (pySplitStrip ['a', '|', 'b']).length ∧
      ((pySplitStrip ['a', '|', 'b']).length ≤ (pySplitStrip ['4', '2']).length →
        out = ((pySplitStrip ['4', '2']).map pyInt).take
          (pySplitStrip ['a', '|', 'b']).length) ∧
      ((pySplitStrip ['4', '2']).length < (pySplitStrip ['a', '|', 'b']).length →
        out = (pySplitStrip ['4', '2']).map pyInt ++
          (List.range ((pySplitStrip ['a', '|', 'b']).length -
            (pySplitStrip ['4', '2']).length)).map (fun _ => 5)) :=
  ⟨by decide, seed_alignment ['a', '|', 'b'] ['4', '2'] (fun _ => 5) (by decide)⟩

/-- C5: any seed token containing a non-digit character makes the seed
assertion fail: `alignSeeds` returns an assertion error (no seed list is
produced), and the whole `predict` run aborts with that error before any
frame is generated. -/
theorem seed_validation (promptsStr str : PyStr) (gen : ℕ → ℕ) (K fps : ℕ)
    (enc : CallOutcome) (tok : PyStr) (c : Char)
    (htok : tok ∈ pySplitStrip str) (hc : c ∈ tok) (hd : c.isDigit = false) :
    alignSeeds (pySplitStrip promptsStr) (some str) gen =
        Except.error PyError.assertionError ∧
    predict promptsStr (some str) gen K fps enc =
        Except.error PyError.assertionError := by
  have h1 : ¬ (pySplitStrip str).all pyIsdigit = true := by
    rw [List.all_eq_true]
    intro hall
    have h2 := hall tok htok
    unfold pyIsdigit at h2
    rw [Bool.and_eq_true] at h2
    have h3 := (List.all_eq_true.mp h2.2) c hc
    rw [hd] at h3
    exact absurd h3 (by decide)
  have herr : alignSeeds (pySplitStrip promptsStr) (some str) gen =
      Except.error PyError.assertionError := by
    unfold alignSeeds
    dsimp only
    rw [if_neg h1]
  refine ⟨herr, ?_⟩
  unfold predict
  dsimp only
  rw [herr]

/-- Witness for C5: seed string "1|x2" contains the token "x2" whose
character 'x' is not a digit; the run aborts. -/
theorem seed_validation_witness :
    (['x', '2'] ∈ pySplitStrip ['1', '|', 'x', '2'] ∧ 'x' ∈ ['x', '2'] ∧
      Char.isDigit 'x' = false) ∧
    alignSeeds (pySplitStrip ['a', '|', 'b']) (some ['1', '|', 'x', '2'])
        (fun _ => 7) = Except.error PyError.assertionError ∧
    predict ['a', '|', 'b'] (some ['1', '|', 'x', '2']) (fun _ => 7) 5 15
        (CallOutcome.completed 0) = Except.error PyError.assertionError :=
  ⟨⟨by decide, by decide, by decide⟩,
    seed_validation ['a', '|', 'b'] ['1', '|', 'x', '2'] (fun _ => 7) 5 15
      (CallOutcome.completed 0) ['x', '2'] 'x' (by decide) (by decide) (by decide)⟩

/-- C2: with one seed per prompt, a run over N prompts with `num_steps = K`
writes exactly (N − 1) · K frames whose file indices are the contiguous
strictly increasing sequence 0, 1, ..., (N − 1) · K − 1, never resetting
between prompt pairs. -/
theorem frame_count_contiguous (prompts : List PyStr) (seeds : List ℕ) (K : ℕ)
    (h : seeds.length = prompts.length) :
    (runDriver prompts seeds K).frames = List.range ((prompts.length - 1) * K) ∧
    (runDriver prompts seeds K).frames.length = (prompts.length - 1) * K := by
  have hf := runDriver_frames prompts seeds K h
  exact ⟨hf, by rw [hf, List.length_range]⟩

/-- Witness for C2: three prompts, two steps per pair: frames 0, 1, 2, 3. -/
theorem frame_count_contiguous_witness :
    (runDriver [['a'], ['b'], ['c']] [1, 2, 3] 2).frames = List.range 4 ∧
      (runDriver [['a'], ['b'], ['c']] [1, 2, 3] 2).frames.length = 4 :=
  frame_count_contiguous [['a'], ['b'], ['c']] [1, 2, 3] 2 rfl

/-- C8 counterexample: with three prompts and `num_steps = 50`, a progress
count is printed at frame 50, the first step of the second prompt pair,
although frame 50 is not the first step of the run and its one-based count
51 is not a multiple of 20 — so printing is not limited to the first step of
the run plus every 20th frame. -/
theorem progress_print_counterexample :
    50 ∈ (runDriver [['a'], ['b'], ['c']] [1, 2, 3] 50).printed ∧
      ¬ (50 = 0 ∨ (50 + 1) % 20 = 0) := by
  constructor
  · rw [runDriver_printed [['a'], ['b'], ['c']] [1, 2, 3] 50 rfl]
    decide
  · decide

/-- C8 (amended): a progress count is printed exactly on the first step of
every prompt pair (frame indices divisible by `num_steps`) and on every
frame whose one-based count is a multiple of 20, and on no other frames;
the frames written are the full contiguous range regardless, so printing
has no effect on the frames produced. -/
theorem progress_printed_characterization (prompts : List PyStr) (seeds : List ℕ)
    (K : ℕ) (h : seeds.length = prompts.length) :
    (runDriver prompts seeds K).printed =
      (List.range ((prompts.length - 1) * K)).filter (printPred K) ∧
    (runDriver prompts seeds K).frames = List.range ((prompts.length - 1) * K) :=
  ⟨runDriver_printed prompts seeds K h, runDriver_frames prompts seeds K h⟩

/-- Witness for C8 (amended) at two prompts and one step per pair. -/
theorem progress_printed_characterization_witness :
    (runDriver [['a'], ['b']] [5, 6] 1).printed =
        (List.range 1).filter (printPred 1) ∧
      (runDriver [['a'], ['b']] [5, 6] 1).frames = List.range 1 :=
  progress_printed_characterization [['a'], ['b']] [5, 6] 1 rfl

/-- C7 counterexample: `np.linspace(0, 1, 1)` is `[0]` — a single sample
equal to 0 — so for `num_steps = 1` the sampled parameters do not cover the
closed interval: the last sample is not 1. -/
theorem linspace_single_sample_counterexample :
    linspace 0 1 1 = [0] ∧ (linspace 0 1 1).getLast? ≠ some 1 := by
  have h : linspace 0 1 1 = [0] := by
    unfold linspace
    rw [if_pos (by norm_num)]
    rfl
  refine ⟨h, ?_⟩
  rw [h]
  intro hcontra
  simp at hcontra

/-- C7 (amended): for `num_steps = K ≥ 2` the interpolation parameter takes
exactly K evenly spaced values `i / (K - 1)` covering the closed interval
[0, 1]: the first sample is 0, the last is 1, and every sample lies in
[0, 1].  (For K = 1 the single sample is 0; for K = 0 there are none.) -/
theorem linspace_closed_interval (n : ℕ) (h : 2 ≤ n) :
    (linspace 0 1 n).length = n ∧
    linspace 0 1 n = (List.range n).map (fun i : ℕ => (i : ℝ) / ((n : ℝ) - 1)) ∧
    (linspace 0 1 n)[0]? = some 0 ∧
    (linspace 0 1 n)[n - 1]? = some 1 ∧
    (∀ x ∈ linspace 0 1 n, 0 ≤ x ∧ x ≤ 1) := by
  have hn2 : (2 : ℝ) ≤ (n : ℝ) := by exact_mod_cast h
  have hpos : (0 : ℝ) < (n : ℝ) - 1 := by linarith
  have hne : (n : ℝ) - 1 ≠ 0 := ne_of_gt hpos
  have hform : linspace 0 1 n =
      (List.range n).map (fun i : ℕ => (i : ℝ) / ((n : ℝ) - 1)) := by
    unfold linspace
    rw [if_neg (by omega)]
    exact List.map_congr_left (fun i _ => by ring)
  refine ⟨linspace_length 0 1 n, hform, ?_, ?_, ?_⟩
  · rw [hform, List.getElem?_map, List.getElem?_range (by omega : 0 < n)]
    simp
  · rw [hform, List.getElem?_map, List.getElem?_range (by omega : n - 1 < n)]
    have hcast : ((n - 1 : ℕ) : ℝ) = (n : ℝ) - 1 := by
      rw [Nat.cast_sub (by omega : 1 ≤ n), Nat.cast_one]
    simp only [Option.map_some']
    rw [hcast, div_self hne]
  · intro x hx
    rw [hform] at hx
    obtain ⟨i, hi, rfl⟩ := List.mem_map.mp hx
    have hin : i < n := List.mem_range.mp hi
    have hile : (i : ℝ) ≤ (n : ℝ) - 1 := by
      have : (i : ℝ) + 1 ≤ (n : ℝ) := by exact_mod_cast hin
      linarith
    constructor
    · exact div_nonneg (Nat.cast_nonneg i) (le_of_lt hpos)
    · rw [div_le_one hpos]
      exact hile

/-- Witness for C7 (amended) at K = 3: first sample 0, last sample 1. -/
theorem linspace_closed_interval_witness :
    (2 ≤ 3) ∧ (linspace 0 1 3)[0]? = some 0 ∧ (linspace 0 1 3)[2]? = some 1 :=
  ⟨by norm_num, (linspace_closed_interval 3 (by norm_num)).2.2.1,
    (linspace_closed_interval 3 (by norm_num)).2.2.2.1⟩

/-- C10: if the prompt string splits into a single prompt, the pair loop
never runs, no frames and no progress counts are produced, and the run still
builds and invokes the encoder command over the (empty) frame directory and
returns the output video path without error, for any completed encoder exit
status. -/
theorem single_prompt_run (promptsStr : PyStr) (gen : ℕ → ℕ) (K fps : ℕ)
    (code : ℤ) (h : (pySplitStrip promptsStr).length = 1) :
    predict promptsStr none gen K fps (CallOutcome.completed code) =
      Except.ok ⟨[], [], ffmpegCmd fps, "/tmp/out.mp4"⟩ := by
  obtain ⟨p, hp⟩ := List.length_eq_one.mp h
  unfold predict
  dsimp only
  rw [hp]
  simp [alignSeeds, runDriver, runCmd]

/-- Witness for C10: the delimiter-free prompt string "a cat". -/
theorem single_prompt_run_witness :
    (pySplitStrip ['a', ' ', 'c', 'a', 't']).length = 1 ∧
      predict ['a', ' ', 'c', 'a', 't'] none (fun _ => 7) 3 15
          (CallOutcome.completed 0) =
        Except.ok ⟨[], [], ffmpegCmd 15, "/tmp/out.mp4"⟩ :=
  ⟨by decide,
    single_prompt_run ['a', ' ', 'c', 'a', 't'] (fun _ => 7) 3 15 0 (by decide)⟩

end SDV
